import Mathlib

/-!
Verification of the session and token lifecycle subsystem of the cosmopot
repository: the server-side session store and gateway, the client-side auth
coordinator, and the dashboard display helper. The dashboard view code
(DashboardView, `accessExpiryMessage`) is embedded directly from the source;
the SessionStore, AuthGateway, AuthClient and RefreshCoordinator components
are referenced by the Vue views but their implementation modules are not part
of the checked-in sources, so they are modelled from the specification, as
noted on each definition.
-/

/-! ## Data model (modelled from the spec, section 3, and docs/user_domain.md) -/

/-- Modelled from the spec: the `users` row. Only the fields the session
subsystem reads are kept: identity, unique email, stored password hash, and
the soft-delete timestamp (`deleted_at` set means the user is excluded from
login and session creation). -/
structure User where
  id : Nat
  email : String
  hashed_password : String
  deleted_at : Option Nat
deriving DecidableEq, Repr

/-- Modelled from the spec: the `user_profiles` row, a one-to-one extension
of the user, removed together with its owning user on cascade delete. -/
structure UserProfile where
  id : Nat
  userId : Nat
deriving DecidableEq, Repr

/-- Modelled from the spec: the `user_sessions` row. Opaque unique token,
owning user, `created_at`, `expires_at`, nullable `revoked_at` and
`ended_at`. Timestamps are naturals (seconds since epoch). -/
structure SessionRecord where
  token : Nat
  userId : Nat
  created_at : Nat
  expires_at : Nat
  revoked_at : Option Nat
  ended_at : Option Nat
deriving DecidableEq, Repr

/-- Modelled from the spec: the persisted state of truth owned by the
SessionStore — users, profiles and sessions. -/
structure Store where
  users : List User
  profiles : List UserProfile
  sessions : List SessionRecord
deriving DecidableEq, Repr

/-- Reason taxonomy of `validateSession` per the spec: `NotFound`,
`Revoked`, `Expired`. -/
inductive InvalidReason where
  | notFound
  | revoked
  | expired
deriving DecidableEq, Repr

/-- Result of `validateSession`: the record, or an `Invalid` outcome. -/
inductive ValidationResult where
  | valid (rec : SessionRecord)
  | invalid (reason : InvalidReason)
deriving DecidableEq, Repr

/-- Error taxonomy of the spec, section 7. -/
inductive AuthError where
  | invalidCredentials
  | sessionExpired
  | sessionRevoked
  | userNotFound
  | sessionConflict
deriving DecidableEq, Repr

/-- Per-session lifecycle states of the spec state machine:
`Active → Revoked` and `Active → Expired`, both terminal. -/
inductive SessionStatus where
  | active
  | revoked
  | expired
deriving DecidableEq, Repr

/-! ## SessionStore operations (modelled from the spec, section 4.1) -/

/-- Look up a session by its opaque token. -/
def lookupSession (st : Store) (tok : Nat) : Option SessionRecord :=
  st.sessions.find? (fun r => r.token = tok)

/-- Look up an active (non-soft-deleted) user by id. -/
def lookupUser (st : Store) (uid : Nat) : Option User :=
  st.users.find? (fun u => u.id = uid)

/-- Lifecycle state of a session record at clock reading `now`:
revoked once `revoked_at` is set, otherwise expired once `now > expires_at`
(lazy detection, no mutation), otherwise active. -/
def recStatus (rec : SessionRecord) (now : Nat) : SessionStatus :=
  if rec.revoked_at.isSome then .revoked
  else if rec.expires_at < now then .expired
  else .active

/-- Modelled from the spec: `createSession(userId)` of the SessionStore,
whose implementation module is absent from the sources. Fails with
`UserNotFound` if the user does not exist or is soft-deleted; rejects a
duplicate token with a conflict error rather than overwriting; otherwise
persists a record with `expires_at = now + ttl`. The freshly generated
opaque token is passed in as `tok`. -/
def createSession (st : Store) (uid tok now ttl : Nat) :
    Except AuthError (SessionRecord × Store) :=
  match lookupUser st uid with
  | none => .error .userNotFound
  | some u =>
    if u.deleted_at.isSome then .error .userNotFound
    else if st.sessions.any (fun r => r.token = tok) then .error .sessionConflict
    else
      let row : SessionRecord :=
        { token := tok, userId := uid, created_at := now,
          expires_at := now + ttl, revoked_at := none, ended_at := none }
      .ok (row, { st with sessions := row :: st.sessions })

/-- Modelled from the spec: `validateSession(token)` of the SessionStore.
Returns `Invalid` with reason `NotFound`, `Revoked`, or `Expired`
(computed as `now > expires_at`, no mutation), else the record. -/
def validateSession (st : Store) (tok now : Nat) : ValidationResult :=
  match lookupSession st tok with
  | none => .invalid .notFound
  | some rec =>
    match recStatus rec now with
    | .revoked => .invalid .revoked
    | .expired => .invalid .expired
    | .active => .valid rec

/-- Lifecycle state of the session stored under `tok`, if any: the
observable face of the per-session state machine. -/
def sessionStatus (st : Store) (tok now : Nat) : Option SessionStatus :=
  (lookupSession st tok).map (fun rec => recStatus rec now)

/-- Modelled from the spec: `revokeSession(token)` of the SessionStore.
Idempotent, never an error: it stamps `revoked_at = now` only when the
session is still active (so revoking an already-revoked or already-expired
session is a no-op success, and no transition leaves a terminal state). -/
def revokeSession (st : Store) (tok now : Nat) : Store :=
  match lookupSession st tok with
  | none => st
  | some rec =>
    if recStatus rec now = .active then
      { st with sessions := st.sessions.map (fun r =>
          if r.token = tok then { r with revoked_at := some now } else r) }
    else st

/-- Modelled from the spec: `deleteUserCascade(userId)` of the SessionStore.
Removes the user, its profile, and every session it owns as one logical
unit (the pure update is a single transaction by construction). -/
def deleteUserCascade (st : Store) (uid : Nat) : Store :=
  { users := st.users.filter (fun u => u.id ≠ uid),
    profiles := st.profiles.filter (fun p => p.userId ≠ uid),
    sessions := st.sessions.filter (fun r => r.userId ≠ uid) }

/-! ## AuthGateway (modelled from the spec, section 4.2) -/

/-- Response of a successful login: the spec quadruple. Token material is
opaque and modelled as naturals. -/
structure LoginResponse where
  accessToken : Nat
  refreshMaterial : Nat
  sessionId : Nat
  expiresInSeconds : Nat
deriving DecidableEq, Repr

/-- Response of a successful refresh. -/
structure RefreshResponse where
  accessToken : Nat
  expiresInSeconds : Nat
deriving DecidableEq, Repr

/-- Summary returned by `whoAmI`. -/
structure UserSummary where
  email : String
  sessionId : Nat
deriving DecidableEq, Repr

/-- Modelled from the spec: the password hash function the stored
`hashed_password` was produced by; its internals are irrelevant to the
session lifecycle, so it is the identity embedding of the password. -/
def hashPassword (pw : String) : String := pw

/-- Modelled from the spec: `login(email, password)` of the AuthGateway,
whose implementation module is absent from the sources. Verifies the
credentials against the stored hash (case-insensitive email comparison),
fails with `InvalidCredentials` on mismatch, unknown email, or soft-deleted
user, and otherwise calls `createSession`. Returns the (possibly grown)
store next to the outcome. -/
def gatewayLogin (st : Store) (email pw : String) (tok now ttl : Nat) :
    Except AuthError LoginResponse × Store :=
  match st.users.find? (fun u => u.email.toLower = email.toLower) with
  | none => (.error .invalidCredentials, st)
  | some u =>
    if u.deleted_at.isSome then (.error .invalidCredentials, st)
    else if u.hashed_password ≠ hashPassword pw then (.error .invalidCredentials, st)
    else
      match createSession st u.id tok now ttl with
      | .error e => (.error e, st)
      | .ok (row, st2) =>
        (.ok { accessToken := tok, refreshMaterial := tok,
               sessionId := row.token, expiresInSeconds := ttl }, st2)

/-- Modelled from the spec: `refresh(sessionId, refreshMaterial)` of the
AuthGateway. Calls `validateSession`; on `Invalid` returns `SessionRevoked`
for a revoked session and `SessionExpired` otherwise, forcing
re-authentication; on success re-issues a fresh access token against the
fixed session window (default policy: refresh does not move `expires_at`). -/
def gatewayRefresh (st : Store) (tok now : Nat) : Except AuthError RefreshResponse :=
  match validateSession st tok now with
  | .invalid .revoked => .error .sessionRevoked
  | .invalid _ => .error .sessionExpired
  | .valid rec => .ok { accessToken := tok, expiresInSeconds := rec.expires_at - now }

/-- Modelled from the spec: `logout(sessionId)` of the AuthGateway — calls
`revokeSession`; always succeeds (idempotent). -/
def gatewayLogout (st : Store) (tok now : Nat) : Store :=
  revokeSession st tok now

/-- Modelled from the spec: `whoAmI(sessionId)` of the AuthGateway —
read-only validation returning the user summary or an `Invalid` outcome
with the `validateSession` reason taxonomy. -/
def whoAmI (st : Store) (tok now : Nat) : Except InvalidReason UserSummary :=
  match validateSession st tok now with
  | .invalid r => .error r
  | .valid rec =>
    match lookupUser st rec.userId with
    | none => .error .notFound
    | some u => .ok { email := u.email, sessionId := rec.token }

/-! ## AuthClient (modelled from the spec, sections 4.3, 4.4 and 5) -/

/-- Outcome a settled refresh network call delivers to every attached
caller: success with the new expiry instant, a terminal-session error, or a
transport failure. -/
inductive RefreshOutcome where
  | ok (expiresAt : Nat)
  | expired
  | revoked
  | netError
deriving DecidableEq, Repr

/-- Modelled from the spec: the client-side single point of truth of the
AuthClient (current user, session identifier, access-token expiry instant),
whose implementation module (the auth store behind `useAuthStore`) is
absent from the sources. `epoch` counts logouts so that the eventual
resolution of a refresh that was in flight when `logout()` ran cannot
resurrect cleared state; `pendingRefresh` is the single-flight handle of
the RefreshCoordinator, holding the epoch captured when the network call
was started. -/
structure ClientState where
  user : Option String
  sessionId : Option Nat
  expiresAt : Option Nat
  epoch : Nat
  pendingRefresh : Option Nat
deriving DecidableEq, Repr

/-- The cleared (logged-out) local auth fields of a client state. -/
def clearAuth (cs : ClientState) : ClientState :=
  { cs with user := none, sessionId := none, expiresAt := none }

/-- Events of the client at its suspension boundaries: starting a refresh
network call, the settling of that call with an outcome, and `logout()`
(whose transport result `netOk` is best-effort and never blocks the local
clear). -/
inductive ClientAct where
  | startRefresh
  | resolveRefresh (o : RefreshOutcome)
  | logout (netOk : Bool)
deriving DecidableEq, Repr

/-- Modelled from the spec: one step of the AuthClient at a suspension
boundary. `startRefresh` stores the single-flight handle when none is
pending; `logout` clears local state unconditionally and advances the
epoch; `resolveRefresh` clears the handle and applies the outcome (update
expiry on success, forced logout on `SessionExpired`/`SessionRevoked`) only
when the stored epoch still matches, so a refresh overlapping a logout is
logically cancelled. -/
def stepClient (cs : ClientState) (a : ClientAct) : ClientState :=
  match a with
  | .startRefresh =>
    if cs.pendingRefresh.isNone then { cs with pendingRefresh := some cs.epoch } else cs
  | .logout _ =>
    { clearAuth cs with epoch := cs.epoch + 1 }
  | .resolveRefresh o =>
    match cs.pendingRefresh with
    | none => cs
    | some e =>
      let settled := { cs with pendingRefresh := none }
      if e = cs.epoch then
        match o with
        | .ok t => { settled with expiresAt := some t }
        | .expired => clearAuth settled
        | .revoked => clearAuth settled
        | .netError => settled
      else settled

/-- Typed outcome of `fetchCurrentUser`: the hydrated user, or the normal
"not logged in" value — never an exception. -/
inductive FetchOutcome where
  | user (email : String)
  | notLoggedIn
deriving DecidableEq, Repr

/-- Modelled from the spec: `login(credentials)` of the AuthClient — calls
`AuthGateway.login`; on success stores user, session and expiry; on failure
leaves local state untouched and surfaces the error (no half-updated
fields). -/
def clientLogin (cs : ClientState) (st : Store) (email pw : String) (tok now ttl : Nat) :
    Except AuthError Unit × ClientState × Store :=
  match gatewayLogin st email pw tok now ttl with
  | (.error e, st2) => (.error e, cs, st2)
  | (.ok resp, st2) =>
    (.ok (), { cs with
                user := some email
                sessionId := some resp.sessionId
                expiresAt := some (now + resp.expiresInSeconds) }, st2)

/-- Modelled from the spec: `fetchCurrentUser()` of the AuthClient — calls
`AuthGateway.whoAmI` to hydrate after a reload; on `Invalid` (or with no
stored session identifier) clears state and returns the typed
`notLoggedIn` outcome rather than throwing. -/
def fetchCurrentUser (cs : ClientState) (st : Store) (now : Nat) :
    FetchOutcome × ClientState :=
  match cs.sessionId with
  | none => (.notLoggedIn, clearAuth cs)
  | some tok =>
    match whoAmI st tok now with
    | .error _ => (.notLoggedIn, clearAuth cs)
    | .ok summ => (.user summ.email, { cs with user := some summ.email })

/-! ## RefreshCoordinator single-flight machine (modelled from the spec,
sections 4.4 and 5) -/

/-- Program counter of one caller of `refreshTokens()`: not yet started,
attached to the pending handle `h`, or settled with its outcome. -/
inductive CallerPC where
  | ready
  | waiting (h : Nat)
  | settled (o : RefreshOutcome)
deriving DecidableEq, Repr

/-- Modelled from the spec: the shared client state the RefreshCoordinator
machine runs over — per-caller program counters, the at-most-one pending
handle, a fresh-handle counter, and the number of network calls issued to
the refresh endpoint. The runtime is single-threaded cooperative: each step
below is one uninterrupted critical section between suspension points. -/
structure CoordSys (N : Nat) where
  callers : Fin N → CallerPC
  pending : Option Nat
  nextId : Nat
  netCalls : Nat

/-- Modelled from the spec: caller `i` invokes `refreshTokens()` and runs
to its suspension point. If a refresh is in flight it attaches to the
existing handle; otherwise it stores a fresh handle and issues the one
network call. Callers already waiting or settled do not re-enter. -/
def startStep {N : Nat} (s : CoordSys N) (i : Fin N) : CoordSys N :=
  match s.callers i with
  | .ready =>
    match s.pending with
    | some h => { s with callers := Function.update s.callers i (.waiting h) }
    | none =>
      { s with
          callers := Function.update s.callers i (.waiting s.nextId)
          pending := some s.nextId
          nextId := s.nextId + 1
          netCalls := s.netCalls + 1 }
  | _ => s

/-- Modelled from the spec: the in-flight network call settles with outcome
`o`. The coordinator clears its pending handle (so the next call starts a
fresh request) and every caller attached to that handle receives the same
outcome. -/
def resolveStep {N : Nat} (s : CoordSys N) (o : RefreshOutcome) : CoordSys N :=
  match s.pending with
  | none => s
  | some h =>
    { s with
        pending := none
        callers := fun j =>
          match s.callers j with
          | .waiting h2 => if h2 = h then .settled o else .waiting h2
          | c => c }

/-- Run the invocation steps of a list of callers in order: one arbitrary
interleaving of the N concurrent `refreshTokens()` entries. -/
def runStarts {N : Nat} (s : CoordSys N) : List (Fin N) → CoordSys N
  | [] => s
  | i :: rest => runStarts (startStep s i) rest

/-- Initial machine state with no refresh in flight: every caller ready, no
pending handle, no network call issued yet. -/
def freshInit (N : Nat) : CoordSys N :=
  { callers := fun _ => .ready, pending := none, nextId := 0, netCalls := 0 }

/-- Initial machine state with one refresh already in flight (handle 0, its
single network call already counted) and every caller still to invoke. -/
def inflightInit (N : Nat) : CoordSys N :=
  { callers := fun _ => .ready, pending := some 0, nextId := 1, netCalls := 1 }

/-! ## Dashboard display helper (embedded from DashboardView) -/

/-- `accessExpiryMessage` from DashboardView: transcribed from the computed
property reading `auth.accessTokenRemaining`. `Math.floor` on a nonneg ratio
is `Int.fdiv`; the JavaScript `%` operator is truncating remainder,
`Int.tmod`. -/
def accessExpiryMessage (seconds : Int) : String :=
  if seconds ≤ 0 then "expired"
  else if seconds < 60 then toString seconds ++ "s"
  else
    let minutes := seconds.fdiv 60
    toString minutes ++ "m " ++ toString (seconds.tmod 60) ++ "s"

/-- The message format as the claim words it: "expired" for `s ≤ 0`, the
seconds with an "s" suffix below a minute, and floor(s/60) minutes with
`s mod 60` (mathematical modulus) seconds from a minute up. -/
def expiryMessageClaim (s : Int) : String :=
  if s ≤ 0 then "expired"
  else if s < 60 then toString s ++ "s"
  else toString (s.fdiv 60) ++ "m " ++ toString (s.emod 60) ++ "s"

/-! ## Concrete fixtures used to witness the theorems on sample data -/

/-- A live user fixture. -/
def wUser : User :=
  { id := 1, email := "a@example.com", hashed_password := "correct",
    deleted_at := none }

/-- An active session fixture owned by `wUser`. -/
def wActiveSession : SessionRecord :=
  { token := 30, userId := 1, created_at := 0, expires_at := 100,
    revoked_at := none, ended_at := none }

/-- A store fixture: one live user with a profile and one active session. -/
def wStore : Store :=
  { users := [wUser], profiles := [{ id := 7, userId := 1 }],
    sessions := [wActiveSession] }

/-- A client-state fixture: logged in, one refresh pending at the current
epoch. -/
def wClient : ClientState :=
  { user := some "a@example.com", sessionId := some 30, expiresAt := some 100,
    epoch := 2, pendingRefresh := some 2 }

/-! ## Single-flight lemmas and C1 -/

theorem startStep_pending_some {N : Nat} (s : CoordSys N) (a : Fin N) (h : Nat)
    (hp : s.pending = some h)
    (hc : ∀ j, s.callers j = .ready ∨ s.callers j = .waiting h) :
    (startStep s a).pending = some h ∧
    (startStep s a).netCalls = s.netCalls ∧
    (∀ j, (startStep s a).callers j = .ready ∨ (startStep s a).callers j = .waiting h) ∧
    (startStep s a).callers a = .waiting h ∧
    (∀ i, s.callers i = .waiting h → (startStep s a).callers i = .waiting h) := by
  rcases hc a with ha | ha
  · have e : startStep s a =
        { s with callers := Function.update s.callers a (.waiting h) } := by
      simp [startStep, ha, hp]
    rw [e]
    refine ⟨hp, rfl, ?_, ?_, ?_⟩
    · intro j
      by_cases hj : j = a
      · subst hj; simp
      · simpa [Function.update, hj] using hc j
    · simp
    · intro i hi
      by_cases hj : i = a
      · subst hj; simp
      · simpa [Function.update, hj] using hi
  · have e : startStep s a = s := by
      simp [startStep, ha]
    rw [e]
    exact ⟨hp, rfl, hc, ha, fun i hi => hi⟩

theorem runStarts_attach {N : Nat} (acts : List (Fin N)) :
    ∀ (s : CoordSys N) (h : Nat), s.pending = some h →
    (∀ j, s.callers j = .ready ∨ s.callers j = .waiting h) →
    (runStarts s acts).pending = some h ∧
    (runStarts s acts).netCalls = s.netCalls ∧
    (∀ j, (runStarts s acts).callers j = .ready ∨ (runStarts s acts).callers j = .waiting h) ∧
    (∀ i, (i ∈ acts ∨ s.callers i = .waiting h) →
      (runStarts s acts).callers i = .waiting h) := by
  induction acts with
  | nil =>
    intro s h hp hc
    refine ⟨hp, rfl, hc, ?_⟩
    intro i hi
    rcases hi with hi | hi
    · exact absurd hi (List.not_mem_nil i)
    · exact hi
  | cons a rest ih =>
    intro s h hp hc
    obtain ⟨hp1, hn1, hc1, hwa, hpres⟩ := startStep_pending_some s a h hp hc
    obtain ⟨hp2, hn2, hc2, hw2⟩ := ih (startStep s a) h hp1 hc1
    refine ⟨hp2, by rw [runStarts, hn2, hn1], hc2, ?_⟩
    intro i hi
    rcases hi with hi | hi
    · rcases List.mem_cons.mp hi with hi | hi
      · subst hi
        exact hw2 i (Or.inr hwa)
      · exact hw2 i (Or.inl hi)
    · exact hw2 i (Or.inr (hpres i hi))

theorem resolveStep_settles {N : Nat} (s : CoordSys N) (o : RefreshOutcome) (h : Nat)
    (hp : s.pending = some h) :
    (resolveStep s o).netCalls = s.netCalls ∧
    (∀ i, s.callers i = .waiting h → (resolveStep s o).callers i = .settled o) := by
  constructor
  · simp [resolveStep, hp]
  · intro i hi
    simp [resolveStep, hp, hi]

/-- C1: with N ≥ 2 concurrent callers of `refreshTokens()`, for every
interleaving in which each caller reaches its invocation step before the
in-flight request settles, exactly one network call to the refresh endpoint
is issued and every caller settles with the same outcome — both when no
refresh is in flight initially and when one already is. -/
theorem c1_single_flight (N : Nat) (acts : List (Fin N)) (o : RefreshOutcome)
    (hN : 2 ≤ N) (hall : ∀ i : Fin N, i ∈ acts) :
    ((resolveStep (runStarts (freshInit N) acts) o).netCalls = 1 ∧
      ∀ i, (resolveStep (runStarts (freshInit N) acts) o).callers i = .settled o) ∧
    ((resolveStep (runStarts (inflightInit N) acts) o).netCalls = 1 ∧
      ∀ i, (resolveStep (runStarts (inflightInit N) acts) o).callers i = .settled o) := by
  constructor
  · match acts, hall with
    | [], hall =>
      have : (⟨0, by omega⟩ : Fin N) ∈ ([] : List (Fin N)) := hall _
      exact absurd this (List.not_mem_nil _)
    | a :: rest, hall =>
      have ha : startStep (freshInit N) a =
          { callers := Function.update (fun _ => CallerPC.ready) a (.waiting 0),
            pending := some 0, nextId := 1, netCalls := 1 } := by
        simp [startStep, freshInit]
      have hc1 : ∀ j, (startStep (freshInit N) a).callers j = .ready ∨
          (startStep (freshInit N) a).callers j = .waiting 0 := by
        intro j
        rw [ha]
        by_cases hj : j = a
        · subst hj; simp
        · simp [Function.update, hj]
      obtain ⟨hp2, hn2, _, hw2⟩ := runStarts_attach rest (startStep (freshInit N) a) 0
        (by rw [ha]) hc1
      obtain ⟨hrn, hrs⟩ := resolveStep_settles (runStarts (startStep (freshInit N) a) rest) o 0 hp2
      constructor
      · rw [runStarts, hrn, hn2, ha]
      · intro i
        rw [runStarts]
        apply hrs
        rcases List.mem_cons.mp (hall i) with hi | hi
        · subst hi
          exact hw2 i (Or.inr (by rw [ha]; simp))
        · exact hw2 i (Or.inl hi)
  · obtain ⟨hp2, hn2, _, hw2⟩ := runStarts_attach acts (inflightInit N) 0 rfl
      (fun j => Or.inl rfl)
    obtain ⟨hrn, hrs⟩ := resolveStep_settles (runStarts (inflightInit N) acts) o 0 hp2
    constructor
    · rw [hrn, hn2]; rfl
    · intro i
      exact hrs i (hw2 i (Or.inl (hall i)))

/-- C1 witness: two concrete callers, both invoking before resolution, in
both initial conditions, with the failure outcome: one network call, both
settled alike. -/
theorem c1_single_flight_witness :
    (2 ≤ 2 ∧ ∀ i : Fin 2, i ∈ ([0, 1] : List (Fin 2))) ∧
    ((resolveStep (runStarts (freshInit 2) [0, 1]) .expired).netCalls = 1 ∧
      ∀ i, (resolveStep (runStarts (freshInit 2) [0, 1]) .expired).callers i =
        .settled .expired) ∧
    ((resolveStep (runStarts (inflightInit 2) [0, 1]) .expired).netCalls = 1 ∧
      ∀ i, (resolveStep (runStarts (inflightInit 2) [0, 1]) .expired).callers i =
        .settled .expired) :=
  ⟨⟨by norm_num, by decide⟩,
    c1_single_flight 2 [0, 1] .expired (by norm_num) (by decide)⟩

/-! ## Session store lemmas -/

theorem lookupSession_token {st : Store} {tok : Nat} {rec : SessionRecord}
    (h : lookupSession st tok = some rec) : rec.token = tok := by
  unfold lookupSession at h
  simpa using List.find?_some h

theorem find?_token_map (f : SessionRecord → SessionRecord)
    (hf : ∀ r, (f r).token = r.token) (tok : Nat) (l : List SessionRecord) :
    (l.map f).find? (fun r => r.token = tok) =
      (l.find? (fun r => r.token = tok)).map f := by
  induction l with
  | nil => rfl
  | cons a l ih =>
    by_cases ha : a.token = tok
    · simp [List.find?_cons, hf, ha]
    · simp [List.find?_cons, hf, ha, ih]

theorem recStatus_terminal_mono (rec : SessionRecord) (now now2 : Nat)
    (h : now ≤ now2) (hs : recStatus rec now ≠ .active) :
    recStatus rec now2 = recStatus rec now := by
  unfold recStatus at *
  by_cases hr : rec.revoked_at.isSome
  · simp [hr]
  · simp only [hr, if_false, Bool.false_eq_true] at hs ⊢
    by_cases he : rec.expires_at < now
    · simp [he, Nat.lt_of_lt_of_le he h]
    · simp [he] at hs

/-- C2: `revokeSession` is idempotent. Revoking a session that is already
revoked or already expired leaves the store unchanged (a no-op success —
the operation is total and never errors), and revoking twice, at monotone
clock readings, leaves the store exactly as revoking once did, so
`revoked_at` is stamped only when it was unset. -/
theorem c2_revoke_idempotent (st : Store) (tok now now2 : Nat) (h : now ≤ now2) :
    (∀ rec, lookupSession st tok = some rec → recStatus rec now ≠ .active →
      revokeSession st tok now = st) ∧
    revokeSession (revokeSession st tok now) tok now2 = revokeSession st tok now := by
  have noop : ∀ (n : Nat) rec, lookupSession st tok = some rec →
      recStatus rec n ≠ .active → revokeSession st tok n = st := by
    intro n rec hl hs
    unfold revokeSession
    rw [hl]
    simp [hs]
  refine ⟨noop now, ?_⟩
  rcases hl : lookupSession st tok with _ | rec
  · have e1 : revokeSession st tok now = st := by
      unfold revokeSession; rw [hl]
    rw [e1]
    unfold revokeSession; rw [hl]
  · by_cases hs : recStatus rec now = .active
    · set g : SessionRecord → SessionRecord :=
        fun r => if r.token = tok then { r with revoked_at := some now } else r with hg
      have hgf : ∀ r, (g r).token = r.token := by
        intro r
        by_cases hr : r.token = tok <;> simp [hg, hr]
      have e1 : revokeSession st tok now = { st with sessions := st.sessions.map g } := by
        unfold revokeSession; rw [hl]; simp [hs, hg]
      have hlook2 : lookupSession { st with sessions := st.sessions.map g } tok =
          some { rec with revoked_at := some now } := by
        unfold lookupSession at hl ⊢
        show (st.sessions.map g).find? (fun r => r.token = tok) = _
        rw [find?_token_map g hgf, hl]
        simp [hg, lookupSession_token (by unfold lookupSession; exact hl)]
      rw [e1]
      unfold revokeSession
      rw [hlook2]
      simp [recStatus]
    · rw [noop now rec hl hs]
      apply noop now2 rec hl
      rw [recStatus_terminal_mono rec now now2 h hs]
      exact hs

/-- C2 witness: a store holding one already-revoked session; revoking it is
a no-op and a second revocation at a later clock changes nothing. -/
theorem c2_revoke_idempotent_witness :
    (0 : Nat) ≤ 3 ∧
    ((∀ rec, lookupSession
        { users := [], profiles := [],
          sessions := [{ token := 20, userId := 1, created_at := 0,
                         expires_at := 100, revoked_at := some 5, ended_at := none }] }
        20 = some rec → recStatus rec 0 ≠ .active →
      revokeSession
        { users := [], profiles := [],
          sessions := [{ token := 20, userId := 1, created_at := 0,
                         expires_at := 100, revoked_at := some 5, ended_at := none }] }
        20 0 =
        { users := [], profiles := [],
          sessions := [{ token := 20, userId := 1, created_at := 0,
                         expires_at := 100, revoked_at := some 5, ended_at := none }] }) ∧
      revokeSession (revokeSession
        { users := [], profiles := [],
          sessions := [{ token := 20, userId := 1, created_at := 0,
                         expires_at := 100, revoked_at := some 5, ended_at := none }] }
        20 0) 20 3 =
        revokeSession
          { users := [], profiles := [],
            sessions := [{ token := 20, userId := 1, created_at := 0,
                           expires_at := 100, revoked_at := some 5, ended_at := none }] }
          20 0) :=
  ⟨by norm_num, c2_revoke_idempotent _ 20 0 3 (by norm_num)⟩

/-- C3: terminal states are never left. A refresh against a revoked session
always returns `SessionRevoked` (so never a fresh access token), and a
session observed in a terminal state (`Revoked` or `Expired`) is still in
that same state after any further `revokeSession` call and any later clock
reading. -/
theorem c3_revoked_terminal (st : Store) (tok tok2 now now2 now3 : Nat)
    (h23 : now2 ≤ now3) :
    (∀ rec, lookupSession st tok = some rec → rec.revoked_at.isSome →
      gatewayRefresh st tok now = .error .sessionRevoked) ∧
    (∀ stat, sessionStatus st tok now2 = some stat → stat ≠ .active →
      sessionStatus (revokeSession st tok2 now2) tok now3 = some stat) := by
  constructor
  · intro rec hl hrev
    unfold gatewayRefresh validateSession
    rw [hl]
    simp [recStatus, hrev]
  · intro stat hstat hterm
    rcases hl : lookupSession st tok with _ | rec
    · rw [sessionStatus, hl] at hstat
      exact absurd hstat (by simp)
    · rw [sessionStatus, hl] at hstat
      simp only [Option.map_some', Option.some_inj] at hstat
      rcases hl2 : lookupSession st tok2 with _ | rec2
      · have e1 : revokeSession st tok2 now2 = st := by
          unfold revokeSession; rw [hl2]
        rw [e1, sessionStatus, hl]
        simp only [Option.map_some', Option.some_inj]
        rw [← hstat] at hterm ⊢
        exact recStatus_terminal_mono rec now2 now3 h23 hterm
      · by_cases hs2 : recStatus rec2 now2 = .active
        · set g : SessionRecord → SessionRecord :=
            fun r => if r.token = tok2 then { r with revoked_at := some now2 } else r with hg
          have hgf : ∀ r, (g r).token = r.token := by
            intro r
            by_cases hr : r.token = tok2 <;> simp [hg, hr]
          have e1 : revokeSession st tok2 now2 =
              { st with sessions := st.sessions.map g } := by
            unfold revokeSession; rw [hl2]; simp [hs2, hg]
          have htok : rec.token = tok :=
            lookupSession_token hl
          have htok2 : rec2.token = tok2 :=
            lookupSession_token hl2
          by_cases heq : tok = tok2
          · rw [heq] at hl
            rw [hl] at hl2
            cases hl2
            rw [← hstat] at hterm
            exact absurd hs2 hterm
          · have hrecg : g rec = rec := by
              simp [hg, htok, heq]
            rw [e1, sessionStatus]
            unfold lookupSession
            show ((st.sessions.map g).find? (fun r => r.token = tok)).map _ = _
            rw [find?_token_map g hgf]
            unfold lookupSession at hl
            rw [hl]
            simp only [Option.map_some', hrecg, Option.some_inj]
            rw [← hstat] at hterm ⊢
            exact recStatus_terminal_mono rec now2 now3 h23 hterm
        · have e1 : revokeSession st tok2 now2 = st := by
            unfold revokeSession; rw [hl2]; simp [hs2]
          rw [e1, sessionStatus, hl]
          simp only [Option.map_some', Option.some_inj]
          rw [← hstat] at hterm ⊢
          exact recStatus_terminal_mono rec now2 now3 h23 hterm

/-- C3 witness: a revoked session; refresh on it answers `SessionRevoked`,
and its `Revoked` state survives another revocation and a later clock. -/
theorem c3_revoked_terminal_witness :
    (2 : Nat) ≤ 4 ∧
    ((∀ rec, lookupSession
        { users := [], profiles := [],
          sessions := [{ token := 21, userId := 1, created_at := 0,
                         expires_at := 100, revoked_at := some 1, ended_at := none }] }
        21 = some rec → rec.revoked_at.isSome →
      gatewayRefresh
        { users := [], profiles := [],
          sessions := [{ token := 21, userId := 1, created_at := 0,
                         expires_at := 100, revoked_at := some 1, ended_at := none }] }
        21 3 = .error .sessionRevoked) ∧
    (∀ stat, sessionStatus
        { users := [], profiles := [],
          sessions := [{ token := 21, userId := 1, created_at := 0,
                         expires_at := 100, revoked_at := some 1, ended_at := none }] }
        21 2 = some stat → stat ≠ .active →
      sessionStatus (revokeSession
        { users := [], profiles := [],
          sessions := [{ token := 21, userId := 1, created_at := 0,
                         expires_at := 100, revoked_at := some 1, ended_at := none }] }
        21 2) 21 4 = some stat)) :=
  ⟨by norm_num, c3_revoked_terminal _ 21 21 3 2 4 (by norm_num)⟩


/-- C4: `deleteUserCascade` removes the profile and every session of the
user in the one resulting store (so no partial application is observable),
and — provided every stored session under a former token of that user
indeed belongs to the user, which token uniqueness guarantees — a
subsequent `validateSession` on such a token returns `Invalid` with reason
`NotFound`. -/
theorem c4_delete_user_cascade (st : Store) (uid tok now : Nat) :
    (∀ p ∈ (deleteUserCascade st uid).profiles, p.userId ≠ uid) ∧
    (∀ r ∈ (deleteUserCascade st uid).sessions, r.userId ≠ uid) ∧
    ((∀ r ∈ st.sessions, r.token = tok → r.userId = uid) →
      validateSession (deleteUserCascade st uid) tok now = .invalid .notFound) := by
  refine ⟨?_, ?_, ?_⟩
  · intro p hp
    have := (List.mem_filter.mp hp).2
    simpa using this
  · intro r hr
    have := (List.mem_filter.mp hr).2
    simpa using this
  · intro hown
    have hnone : lookupSession (deleteUserCascade st uid) tok = none := by
      unfold lookupSession deleteUserCascade
      rw [List.find?_eq_none]
      intro r hr
      have hmem := List.mem_filter.mp hr
      have hne : r.userId ≠ uid := by simpa using hmem.2
      simp only [decide_eq_true_eq]
      intro hrt
      exact hne (hown r hmem.1 hrt)
    unfold validateSession
    rw [hnone]

/-- C4 witness: deleting user 1 from the fixture store removes its profile
and session, and validating the former token 30 reports `NotFound`. -/
theorem c4_delete_user_cascade_witness :
    (∀ p ∈ (deleteUserCascade wStore 1).profiles, p.userId ≠ 1) ∧
    (∀ r ∈ (deleteUserCascade wStore 1).sessions, r.userId ≠ 1) ∧
    ((∀ r ∈ wStore.sessions, r.token = 30 → r.userId = 1) →
      validateSession (deleteUserCascade wStore 1) 30 50 = .invalid .notFound) :=
  c4_delete_user_cascade wStore 1 30 50

/-- C5: a successful `createSession` yields `expires_at > created_at`
(given the positive time-to-live) and a token distinct from every currently
stored session token, preserving store-wide token uniqueness; and with a
duplicate token the call is rejected — as a conflict error for a live
user — and never succeeds, so no stored session is overwritten. -/
theorem c5_create_session (st : Store) (uid tok now ttl : Nat) :
    (∀ row st2, 0 < ttl → createSession st uid tok now ttl = .ok (row, st2) →
      row.created_at < row.expires_at ∧
      (∀ r ∈ st.sessions, r.token ≠ row.token) ∧
      ((st.sessions.map (fun r => r.token)).Nodup →
        (st2.sessions.map (fun r => r.token)).Nodup)) ∧
    (st.sessions.any (fun r => r.token = tok) →
      (∀ u, lookupUser st uid = some u → u.deleted_at = none →
        createSession st uid tok now ttl = .error .sessionConflict) ∧
      ∀ res, createSession st uid tok now ttl ≠ .ok res) := by
  constructor
  · intro row st2 httl hok
    unfold createSession at hok
    rcases hu : lookupUser st uid with _ | u
    · rw [hu] at hok; cases hok
    · rw [hu] at hok
      by_cases hd : u.deleted_at.isSome
      · simp [hd] at hok
      · by_cases hdup : st.sessions.any (fun r => r.token = tok)
        · simp [hd, hdup] at hok
        · simp only [hd, hdup, Bool.false_eq_true, if_false] at hok
          have hnotok : ∀ r ∈ st.sessions, r.token ≠ tok := by
            intro r hr hrt
            rw [List.any_eq_true] at hdup
            exact hdup ⟨r, hr, by simpa using hrt⟩
          rw [Except.ok.injEq, Prod.mk.injEq] at hok
          obtain ⟨hrow, hst2⟩ := hok
          refine ⟨?_, ?_, ?_⟩
          · rw [← hrow]; simp; omega
          · intro r hr
            rw [← hrow]
            simpa using hnotok r hr
          · intro hnd
            rw [← hst2]
            simp only [List.map_cons, List.nodup_cons]
            refine ⟨?_, hnd⟩
            intro hmem
            rw [List.mem_map] at hmem
            obtain ⟨r, hr, hrt⟩ := hmem
            exact hnotok r hr hrt
  · intro hdup
    constructor
    · intro u hu hd
      unfold createSession
      rw [hu]
      simp [hd, hdup]
    · intro res hok
      unfold createSession at hok
      rcases hu : lookupUser st uid with _ | u
      · rw [hu] at hok; cases hok
      · rw [hu] at hok
        by_cases hd : u.deleted_at.isSome
        · simp [hd] at hok
        · simp [hd, hdup] at hok

/-- C5 witness, instantiating the theorem twice on the fixture store so
both halves bite: token 30 is already stored, so the duplicate-rejection
half applies with its hypothesis discharged concretely, while fresh token
40 exercises the success half, its antecedent shown satisfied by the
concrete `.ok` evaluation. -/
theorem c5_create_session_witness :
    wStore.sessions.any (fun r => r.token = 30) = true ∧
    createSession wStore 1 40 10 60 =
      .ok ({ token := 40, userId := 1, created_at := 10, expires_at := 70,
             revoked_at := none, ended_at := none },
           { wStore with sessions :=
              { token := 40, userId := 1, created_at := 10, expires_at := 70,
                revoked_at := none, ended_at := none } :: wStore.sessions }) ∧
    ((∀ u, lookupUser wStore 1 = some u → u.deleted_at = none →
        createSession wStore 1 30 10 60 = .error .sessionConflict) ∧
      ∀ res, createSession wStore 1 30 10 60 ≠ .ok res) ∧
    (∀ row st2, 0 < 60 → createSession wStore 1 40 10 60 = .ok (row, st2) →
      row.created_at < row.expires_at ∧
      (∀ r ∈ wStore.sessions, r.token ≠ row.token) ∧
      ((wStore.sessions.map (fun r => r.token)).Nodup →
        (st2.sessions.map (fun r => r.token)).Nodup)) :=
  ⟨by rfl, by rfl,
    (c5_create_session wStore 1 30 10 60).2 (by rfl),
    (c5_create_session wStore 1 40 10 60).1⟩

/-- C10: for every integer reading of `accessTokenRemaining`, the derived
expiry message of the dashboard equals the three-case format stated in the
claim. -/
theorem c10_access_expiry_message (s : Int) :
    accessExpiryMessage s = expiryMessageClaim s := by
  unfold accessExpiryMessage expiryMessageClaim
  by_cases h0 : s ≤ 0
  · simp [h0]
  · by_cases h60 : s < 60
    · simp [h0, h60]
    · have hpos : (0 : Int) ≤ s := by omega
      have : s.tmod 60 = s.emod 60 := Int.tmod_eq_emod hpos (by norm_num)
      simp [h0, h60, this]


theorem gatewayLogin_error_store (st : Store) (email pw : String) (tok now ttl : Nat)
    (e : AuthError) (h : (gatewayLogin st email pw tok now ttl).1 = .error e) :
    gatewayLogin st email pw tok now ttl = (.error e, st) := by
  unfold gatewayLogin at h ⊢
  rcases hf : st.users.find? (fun u => u.email.toLower = email.toLower) with _ | u
  · rw [hf] at h ⊢
    cases h
    rfl
  · simp only [hf] at h ⊢
    by_cases hd : u.deleted_at.isSome
    · rw [if_pos hd] at h ⊢
      cases h
      rfl
    · rw [if_neg hd] at h ⊢
      by_cases hpw : u.hashed_password ≠ hashPassword pw
      · rw [if_pos hpw] at h ⊢
        cases h
        rfl
      · rw [if_neg hpw] at h ⊢
        rcases hcr : createSession st u.id tok now ttl with e2 | ⟨row, st2⟩
        · rw [hcr] at h
          cases h
          rfl
        · rw [hcr] at h
          cases h

/-- C6: when the login of the client fails, the gateway leaves the store
untouched, the client surfaces the very error to its caller with its local
state (user, session identifier, expiry) unchanged, and the session count
of every user is unchanged — no session record was created. -/
theorem c6_login_failure_no_partial_state (cs : ClientState) (st : Store)
    (email pw : String) (tok now ttl uid : Nat) (e : AuthError)
    (h : (gatewayLogin st email pw tok now ttl).1 = .error e) :
    clientLogin cs st email pw tok now ttl = (.error e, cs, st) ∧
    ((clientLogin cs st email pw tok now ttl).2.2.sessions.filter
        (fun r => r.userId = uid)).length =
      (st.sessions.filter (fun r => r.userId = uid)).length := by
  have he := gatewayLogin_error_store st email pw tok now ttl e h
  have e1 : clientLogin cs st email pw tok now ttl = (.error e, cs, st) := by
    unfold clientLogin
    rw [he]
  exact ⟨e1, by rw [e1]⟩

/-- C6 witness: a wrong password against the fixture store yields
`InvalidCredentials`, the client state and store are returned unchanged,
and the session count of user 1 is unchanged. -/
theorem c6_login_failure_no_partial_state_witness :
    (gatewayLogin wStore "a@example.com" "wrong" 50 10 60).1 =
      .error .invalidCredentials ∧
    clientLogin wClient wStore "a@example.com" "wrong" 50 10 60 =
      (.error .invalidCredentials, wClient, wStore) ∧
    ((clientLogin wClient wStore "a@example.com" "wrong" 50 10 60).2.2.sessions.filter
        (fun r => r.userId = 1)).length =
      (wStore.sessions.filter (fun r => r.userId = 1)).length :=
  ⟨by simp [gatewayLogin, wStore, wUser, hashPassword, List.find?],
    (c6_login_failure_no_partial_state wClient wStore "a@example.com" "wrong"
      50 10 60 1 .invalidCredentials
      (by simp [gatewayLogin, wStore, wUser, hashPassword, List.find?])).1,
    (c6_login_failure_no_partial_state wClient wStore "a@example.com" "wrong"
      50 10 60 1 .invalidCredentials
      (by simp [gatewayLogin, wStore, wUser, hashPassword, List.find?])).2⟩

/-- C7: `logout()` clears the local auth state unconditionally — for both
transport outcomes of the best-effort gateway call — and the later
resolution of a refresh that was pending at logout time (any outcome,
success included) leaves the cleared state cleared: the logical effect of
the pending refresh is cancelled by the epoch advance. -/
theorem c7_logout_clears_unconditionally (cs : ClientState) (netOk : Bool)
    (o : RefreshOutcome)
    (hpend : ∀ ep, cs.pendingRefresh = some ep → ep ≤ cs.epoch) :
    ((stepClient cs (.logout netOk)).user = none ∧
     (stepClient cs (.logout netOk)).sessionId = none ∧
     (stepClient cs (.logout netOk)).expiresAt = none) ∧
    ((stepClient (stepClient cs (.logout netOk)) (.resolveRefresh o)).user = none ∧
     (stepClient (stepClient cs (.logout netOk)) (.resolveRefresh o)).sessionId = none ∧
     (stepClient (stepClient cs (.logout netOk)) (.resolveRefresh o)).expiresAt = none) := by
  have e1 : stepClient cs (.logout netOk) =
      { clearAuth cs with epoch := cs.epoch + 1 } := rfl
  refine ⟨⟨rfl, rfl, rfl⟩, ?_⟩
  rw [e1]
  rcases hp : cs.pendingRefresh with _ | ep
  · simp [stepClient, clearAuth, hp]
  · have hle := hpend ep hp
    have hne : ep ≠ cs.epoch + 1 := by omega
    simp [stepClient, clearAuth, hp, hne]

/-- C7 witness: the fixture client logs out while its refresh is pending
and the refresh later resolves successfully; the state stays cleared. -/
theorem c7_logout_clears_unconditionally_witness :
    (∀ ep, wClient.pendingRefresh = some ep → ep ≤ wClient.epoch) ∧
    (((stepClient wClient (.logout false)).user = none ∧
      (stepClient wClient (.logout false)).sessionId = none ∧
      (stepClient wClient (.logout false)).expiresAt = none) ∧
     ((stepClient (stepClient wClient (.logout false))
         (.resolveRefresh (.ok 500))).user = none ∧
      (stepClient (stepClient wClient (.logout false))
         (.resolveRefresh (.ok 500))).sessionId = none ∧
      (stepClient (stepClient wClient (.logout false))
         (.resolveRefresh (.ok 500))).expiresAt = none)) :=
  ⟨fun ep h => by simp [wClient] at h ⊢; omega,
    c7_logout_clears_unconditionally wClient false (.ok 500)
      (fun ep h => by simp [wClient] at h ⊢; omega)⟩

/-- C8: once the clock passes the expiry window of a session that was not
revoked, `refresh` answers `SessionExpired`; and the client, on receiving
`SessionExpired` or `SessionRevoked` for its pending refresh, clears user,
session identifier and expiry — a forced logout. -/
theorem c8_expired_refresh_forces_logout (st : Store) (tok now : Nat)
    (cs : ClientState) (hp : cs.pendingRefresh = some cs.epoch) :
    (∀ rec, lookupSession st tok = some rec → rec.revoked_at = none →
      rec.expires_at < now → gatewayRefresh st tok now = .error .sessionExpired) ∧
    ((stepClient cs (.resolveRefresh .expired)).user = none ∧
     (stepClient cs (.resolveRefresh .expired)).sessionId = none ∧
     (stepClient cs (.resolveRefresh .expired)).expiresAt = none) ∧
    ((stepClient cs (.resolveRefresh .revoked)).user = none ∧
     (stepClient cs (.resolveRefresh .revoked)).sessionId = none ∧
     (stepClient cs (.resolveRefresh .revoked)).expiresAt = none) := by
  refine ⟨?_, ?_, ?_⟩
  · intro rec hl hrev hexp
    unfold gatewayRefresh validateSession
    rw [hl]
    simp [recStatus, hrev, hexp]
  · simp [stepClient, hp, clearAuth]
  · simp [stepClient, hp, clearAuth]

/-- C8 witness: the fixture session (expiry 100) at clock 200 refreshes to
`SessionExpired`, and the fixture client clears itself on that outcome. -/
theorem c8_expired_refresh_forces_logout_witness :
    wClient.pendingRefresh = some wClient.epoch ∧
    ((∀ rec, lookupSession wStore 30 = some rec → rec.revoked_at = none →
      rec.expires_at < 200 → gatewayRefresh wStore 30 200 = .error .sessionExpired) ∧
    ((stepClient wClient (.resolveRefresh .expired)).user = none ∧
     (stepClient wClient (.resolveRefresh .expired)).sessionId = none ∧
     (stepClient wClient (.resolveRefresh .expired)).expiresAt = none) ∧
    ((stepClient wClient (.resolveRefresh .revoked)).user = none ∧
     (stepClient wClient (.resolveRefresh .revoked)).sessionId = none ∧
     (stepClient wClient (.resolveRefresh .revoked)).expiresAt = none)) :=
  ⟨rfl, c8_expired_refresh_forces_logout wStore 30 200 wClient rfl⟩

/-- C9: whenever `whoAmI` answers with an `Invalid` outcome, the client
operation `fetchCurrentUser` returns the typed `notLoggedIn` value — it is
a total function, so it never throws — and its resulting local state is
cleared. -/
theorem c9_fetch_invalid_clears (cs : ClientState) (st : Store) (now tok : Nat)
    (r : InvalidReason) (hsid : cs.sessionId = some tok)
    (hwho : whoAmI st tok now = .error r) :
    fetchCurrentUser cs st now = (.notLoggedIn, clearAuth cs) ∧
    (fetchCurrentUser cs st now).2.user = none ∧
    (fetchCurrentUser cs st now).2.sessionId = none ∧
    (fetchCurrentUser cs st now).2.expiresAt = none := by
  have e1 : fetchCurrentUser cs st now = (.notLoggedIn, clearAuth cs) := by
    simp [fetchCurrentUser, hsid, hwho]
  exact ⟨e1, by rw [e1]; rfl, by rw [e1]; rfl, by rw [e1]; rfl⟩

/-- C9 witness: hydrating the fixture client at clock 200, when `whoAmI`
reports the session expired, yields `notLoggedIn` and a cleared state. -/
theorem c9_fetch_invalid_clears_witness :
    wClient.sessionId = some 30 ∧
    whoAmI wStore 30 200 = .error .expired ∧
    (fetchCurrentUser wClient wStore 200 = (.notLoggedIn, clearAuth wClient) ∧
     (fetchCurrentUser wClient wStore 200).2.user = none ∧
     (fetchCurrentUser wClient wStore 200).2.sessionId = none ∧
     (fetchCurrentUser wClient wStore 200).2.expiresAt = none) :=
  ⟨rfl, by rfl, c9_fetch_invalid_clears wClient wStore 200 30 .expired rfl (by rfl)⟩
